import Mathlib

/-!
Verification development for the PolyMarket data-ingestion pipeline.

Shallow embedding of the repository's Python sources:
  * `src/connectors/polymarket/schemas.py` — normalization functions,
  * `src/storage/postgres.py` — upsert storage and checkpoints,
  * `src/core/ingestion.py` — the ingestion engine,
  * `src/connectors/polymarket/client.py` — the retrying HTTP client,
  * `cli/commands.py` — the operator CLI.

Python floats are modelled as exact rationals (`ℚ`); `datetime` instants as a
six-field calendar structure ordered lexicographically; raw JSON payloads as
association lists of string keys to a small universe of values.
-/

namespace PM

/-- Calendar instant modelling Python `datetime` (microseconds omitted: every
instant manipulated by the claims has zero microseconds). -/
structure DateTime where
  year : Nat
  month : Nat
  day : Nat
  hour : Nat
  minute : Nat
  second : Nat
deriving DecidableEq, Repr

/-- Lexicographic strict order on instants, as Python `datetime` comparison. -/
def dtLt (a b : DateTime) : Bool :=
  if a.year ≠ b.year then a.year < b.year
  else if a.month ≠ b.month then a.month < b.month
  else if a.day ≠ b.day then a.day < b.day
  else if a.hour ≠ b.hour then a.hour < b.hour
  else if a.minute ≠ b.minute then a.minute < b.minute
  else a.second < b.second

/-- Non-strict order on instants. -/
def dtLe (a b : DateTime) : Bool := a = b || dtLt a b

/-- Gregorian leap-year rule (as Python's `calendar`/`timedelta` arithmetic). -/
def isLeapYear (y : Nat) : Bool :=
  (y % 4 == 0 && y % 100 != 0) || y % 400 == 0

/-- Days in a month of a given year. -/
def daysInMonth (y m : Nat) : Nat :=
  if m = 2 then (if isLeapYear y then 29 else 28)
  else if m = 4 ∨ m = 6 ∨ m = 9 ∨ m = 11 then 30
  else 31

/-- `d + timedelta(days=1)` on the calendar. -/
def DateTime.addOneDay (d : DateTime) : DateTime :=
  if d.day < daysInMonth d.year d.month then { d with day := d.day + 1 }
  else if d.month < 12 then { d with month := d.month + 1, day := 1 }
  else { d with year := d.year + 1, month := 1, day := 1 }

/-- Python `max` over a list of instants: `none` models the `ValueError`
raised by `max()` on an empty sequence; ties keep the earlier element, as
Python `max` returns the first maximal item. -/
def pythonMaxDT (l : List DateTime) : Option DateTime :=
  l.foldl (fun acc t =>
    match acc with
    | none => some t
    | some m => some (if dtLt m t then t else m)) none

/-- Universe of raw JSON field values reaching the normalizers: JSON null /
Python `None`, strings, numbers (floats as exact rationals), already-typed
datetimes, and (as representative of non-numeric structures such as lists)
the empty list. -/
inductive RawValue where
  | vNull
  | vStr (s : String)
  | vNum (q : ℚ)
  | vDatetime (t : DateTime)
  | vEmptyList
deriving DecidableEq, Repr

/-- A raw payload: an association list of field names to values, first
binding wins (Python `dict` keys are unique; lookups take the first). -/
def RawDict := List (String × RawValue)
deriving DecidableEq, Repr

/-- `raw.get(k)`: `vNull` when the key is absent, mirroring Python `dict.get`
returning `None`. -/
def rawGet (raw : RawDict) (k : String) : RawValue :=
  match raw.find? (fun kv => kv.1 == k) with
  | some kv => kv.2
  | none => .vNull

/-- `raw.get(k, d)`: the stored value, or `d` when the key is absent. -/
def rawGetD (raw : RawDict) (k : String) (d : RawValue) : RawValue :=
  match raw.find? (fun kv => kv.1 == k) with
  | some kv => kv.2
  | none => d

/-- Key-presence test (`k in raw`). -/
def rawHas (raw : RawDict) (k : String) : Bool :=
  (raw.find? (fun kv => kv.1 == k)).isSome

/-- Split a character list at every occurrence of a separator. -/
def splitOnChar (sep : Char) : List Char → List (List Char)
  | [] => [[]]
  | c :: rest =>
    match splitOnChar sep rest with
    | [] => if c = sep then [[], []] else [[c]]
    | cur :: done =>
      if c = sep then [] :: cur :: done else (c :: cur) :: done

/-- Digits-only character run to `Nat`. -/
def parseDigits (l : List Char) : Option Nat :=
  if l ≠ [] ∧ l.all Char.isDigit then
    some (l.foldl (fun acc c => acc * 10 + (c.toNat - 48)) 0)
  else none

/-- Python `float(s)` on decimal literals: optional sign, integer digits,
optional fractional digits. Anything else fails (`ValueError`). Models the
decimal-literal subset exercised by the payloads under test. -/
def parseFloatStr (s : String) : Option ℚ :=
  let l := s.toList
  let (neg, body) :=
    match l with
    | '-' :: rest => (true, rest)
    | _ => (false, l)
  let mk (q : ℚ) : ℚ := if neg then -q else q
  match splitOnChar '.' body with
  | [intPart] =>
    match parseDigits intPart with
    | some n => some (mk n)
    | none => none
  | [intPart, fracPart] =>
    match parseDigits intPart, parseDigits fracPart with
    | some n, some f =>
      some (mk ((n : ℚ) + (f : ℚ) / ((10 : ℚ) ^ fracPart.length)))
    | _, _ => none
  | _ => none

/-- Validated year-month-day from `YYYY-MM-DD` characters. -/
def parseYmd (ds : List Char) : Option (Nat × Nat × Nat) :=
  match splitOnChar '-' ds with
  | [ys, ms, dds] =>
    match parseDigits ys, parseDigits ms, parseDigits dds with
    | some y, some m, some d =>
      if 1 ≤ m ∧ m ≤ 12 ∧ 1 ≤ d ∧ d ≤ daysInMonth y m then some (y, m, d)
      else none
    | _, _, _ => none
  | _ => none

/-- Validated hour-minute-second from `HH:MM:SS` characters. -/
def parseHms (ts : List Char) : Option (Nat × Nat × Nat) :=
  match splitOnChar ':' ts with
  | [hs, ms, ss] =>
    match parseDigits hs, parseDigits ms, parseDigits ss with
    | some h, some mi, some sec =>
      if h ≤ 23 ∧ mi ≤ 59 ∧ sec ≤ 59 then some (h, mi, sec) else none
    | _, _, _ => none
  | _ => none

/-- `dateutil.parser.parse` on ISO-8601 text, the format exercised by the
CLI and payloads: `YYYY-MM-DD`, optionally `THH:MM:SS` (or space-separated),
optionally with a trailing Z. Unrecognized text fails (`ParserError`, a
`ValueError`). -/
def parseDateStr (s : String) : Option DateTime :=
  let l0 := s.toList
  let l := if l0.getLast? = some 'Z' then l0.dropLast else l0
  let parts := if l.contains 'T' then splitOnChar 'T' l else splitOnChar ' ' l
  match parts with
  | [ds] =>
    match parseYmd ds with
    | some (y, m, d) => some ⟨y, m, d, 0, 0, 0⟩
    | none => none
  | [ds, ts] =>
    match parseYmd ds, parseHms ts with
    | some (y, m, d), some (h, mi, sec) => some ⟨y, m, d, h, mi, sec⟩
    | _, _ => none
  | _ => none

/-- `schemas._parse_datetime`: an already-typed instant passes through,
a string is parsed (failure yields no value), anything else yields no value.
Never raises. -/
def _parse_datetime (value : RawValue) : Option DateTime :=
  match value with
  | .vNull => none
  | .vDatetime t => some t
  | .vStr s => parseDateStr s
  | _ => none

/-- `schemas._parse_float`: `None` yields the caller's default, a number is
returned, a string is parsed with `float()` (failure — `ValueError` — yields
the default), a non-numeric value (`TypeError`) yields the default.
Never raises. -/
def _parse_float (value : RawValue) (default : Option ℚ) : Option ℚ :=
  match value with
  | .vNull => default
  | .vNum q => some q
  | .vStr s =>
    match parseFloatStr s with
    | some q => some q
    | none => default
  | _ => default

/-- Python `str(v)` for the values that can reach `str(raw.get(...))`. -/
def pyStr (v : RawValue) : String :=
  match v with
  | .vNull => "None"
  | .vStr s => s
  | .vNum q => toString q
  | .vDatetime _ => "datetime"
  | .vEmptyList => "[]"

/-- Canonical market record (the field map built by
`normalize_market_from_raw`, also the row shape of the `markets` table). -/
structure MarketRecord where
  market_id : String
  source : String
  question : RawValue
  description : RawValue
  end_date : Option DateTime
  resolution_source : RawValue
  category : RawValue
  tags : RawValue
  liquidity : Option ℚ
  volume_24h : Option ℚ
  created_at : Option DateTime
  updated_at : Option DateTime
  raw_data : RawDict
deriving DecidableEq, Repr

/-- Canonical trade record (the field map built by
`normalize_trade_from_raw`, also the row shape of the `trades` table). -/
structure TradeRecord where
  trade_id : String
  source : String
  market_id : String
  outcome_id : String
  price : Option ℚ
  quantity : Option ℚ
  timestamp : Option DateTime
  side : RawValue
  taker_address : RawValue
  maker_address : RawValue
  transaction_hash : RawValue
  raw_data : RawDict
deriving DecidableEq, Repr

/-- Canonical price-snapshot record (the field map built by
`normalize_price_snapshot_from_raw`, also the row shape of the
`price_snapshots` table). -/
structure SnapshotRecord where
  market_id : String
  source : String
  outcome_id : String
  timestamp : DateTime
  implied_probability : Option ℚ
  bid : Option ℚ
  ask : Option ℚ
  mid : Option ℚ
  spread : Option ℚ
  volume_24h : Option ℚ
  liquidity : Option ℚ
  raw_data : RawDict
deriving DecidableEq, Repr

/-- `schemas.normalize_market_from_raw`. -/
def normalize_market_from_raw (raw : RawDict) (source : String) : MarketRecord :=
  { market_id := pyStr (rawGetD raw "id" (.vStr ""))
    source := source
    question := rawGetD raw "question" (.vStr "")
    description := rawGet raw "description"
    end_date := _parse_datetime (rawGet raw "endDate")
    resolution_source := rawGet raw "resolutionSource"
    category := rawGet raw "category"
    tags := rawGetD raw "tags" .vEmptyList
    liquidity := _parse_float (rawGet raw "liquidity") none
    volume_24h := _parse_float (rawGet raw "volume24h") none
    created_at := _parse_datetime (rawGet raw "createdAt")
    updated_at := _parse_datetime (rawGet raw "updatedAt")
    raw_data := raw }

/-- `schemas.normalize_trade_from_raw`. -/
def normalize_trade_from_raw (raw : RawDict) (source : String) : TradeRecord :=
  { trade_id := pyStr (rawGetD raw "id" (.vStr ""))
    source := source
    market_id := pyStr (rawGetD raw "marketId" (.vStr ""))
    outcome_id := pyStr (rawGetD raw "outcomeId" (.vStr ""))
    price := _parse_float (rawGet raw "price") (some 0)
    quantity := _parse_float (rawGet raw "quantity") (some 0)
    timestamp := _parse_datetime (rawGet raw "timestamp")
    side := rawGet raw "side"
    taker_address := rawGet raw "takerAddress"
    maker_address := rawGet raw "makerAddress"
    transaction_hash := rawGet raw "transactionHash"
    raw_data := raw }

/-- `schemas.normalize_price_snapshot_from_raw`; `now` stands for the value
of `datetime.utcnow()` at the call (the `or datetime.utcnow()` fallback —
faithful, since a `datetime` is always truthy). -/
def normalize_price_snapshot_from_raw (raw : RawDict) (source : String)
    (now : DateTime) : SnapshotRecord :=
  let mid0 := _parse_float (rawGet raw "mid") none
  let spread0 := _parse_float (rawGet raw "spread") none
  let bid := _parse_float (rawGet raw "bid") none
  let ask := _parse_float (rawGet raw "ask") none
  let mid :=
    match mid0, bid, ask with
    | none, some b, some a => some ((b + a) / 2)
    | m, _, _ => m
  let spread :=
    match spread0, bid, ask with
    | none, some b, some a => some (a - b)
    | sp, _, _ => sp
  { market_id := pyStr (rawGetD raw "marketId" (.vStr ""))
    source := source
    outcome_id := pyStr (rawGetD raw "outcomeId" (.vStr ""))
    timestamp := (_parse_datetime (rawGet raw "timestamp")).getD now
    implied_probability := _parse_float (rawGet raw "impliedProbability") (some 0)
    bid := bid
    ask := ask
    mid := mid
    spread := spread
    volume_24h := _parse_float (rawGet raw "volume24h") none
    liquidity := _parse_float (rawGet raw "liquidity") none
    raw_data := raw }

/-! ## Storage backend (`src/storage/postgres.py`)

Tables are modelled as Lean lists of row records (the row shapes coincide
with the normalized field maps, as the Python dicts carry exactly the
columns). Each `store_*` operation processes its batch inside one
transaction: on any failure the pre-call table is returned unchanged
(`session.rollback()`) and the error is surfaced (`raise`). DB-side commit
failures (connectivity loss and the like) are modelled by the `commitOk`
flag; NOT NULL constraint enforcement at commit is modelled by the
per-table row-validity checks below. -/

/-- Natural-key match for `trades` rows: `(trade_id, source)`
(`uq_trades_id_source`). -/
def tradeKeyMatches (row r : TradeRecord) : Bool :=
  row.trade_id == r.trade_id && row.source == r.source

/-- Overwrite every non-key column of `row` with the incoming values of `r`,
leaving the key columns `(trade_id, source)` unchanged — the
`setattr` loop of `store_trades`. -/
def overwriteTradeNonKey (row r : TradeRecord) : TradeRecord :=
  { r with trade_id := row.trade_id, source := row.source }

/-- One upsert step of `store_trades`: the first row matching the natural
key is updated in place (`.first()`), otherwise the record is inserted
(`session.add` appends). -/
def applyTradeUpsert : List TradeRecord → TradeRecord → List TradeRecord
  | [], r => [r]
  | row :: rest, r =>
    if tradeKeyMatches row r then overwriteTradeNonKey row r :: rest
    else row :: applyTradeUpsert rest r

/-- NOT NULL columns of the `trades` table that normalization can leave
absent: `price`, `quantity`, `timestamp` (the string key columns are always
present). A row violating these fails the commit (`IntegrityError`). -/
def tradeRowValid (r : TradeRecord) : Bool :=
  r.price.isSome && r.quantity.isSome && r.timestamp.isSome

/-- `PostgresStorage.store_trades`: upsert each record of the batch by
`(trade_id, source)`, count every record, commit once; on failure roll the
whole batch back and surface the error. -/
def store_trades (commitOk : Bool) (table : List TradeRecord)
    (batch : List TradeRecord) : List TradeRecord × Except String Nat :=
  let processed := batch.foldl applyTradeUpsert table
  if ¬ (batch.all tradeRowValid) then (table, .error "IntegrityError")
  else if ¬ commitOk then (table, .error "OperationalError")
  else (processed, .ok batch.length)

/-- Natural-key match for `markets` rows: `(market_id, source)`
(`uq_markets_id_source`). -/
def marketKeyMatches (row r : MarketRecord) : Bool :=
  row.market_id == r.market_id && row.source == r.source

/-- Non-key overwrite for `markets` rows. -/
def overwriteMarketNonKey (row r : MarketRecord) : MarketRecord :=
  { r with market_id := row.market_id, source := row.source }

/-- One upsert step of `store_markets`. -/
def applyMarketUpsert : List MarketRecord → MarketRecord → List MarketRecord
  | [], r => [r]
  | row :: rest, r =>
    if marketKeyMatches row r then overwriteMarketNonKey row r :: rest
    else row :: applyMarketUpsert rest r

/-- NOT NULL check for `markets` rows: `question` is `Text NOT NULL`, and a
payload carrying an explicit null for it reaches the row as null. -/
def marketRowValid (r : MarketRecord) : Bool :=
  r.question != .vNull

/-- `PostgresStorage.store_markets`. -/
def store_markets (commitOk : Bool) (table : List MarketRecord)
    (batch : List MarketRecord) : List MarketRecord × Except String Nat :=
  let processed := batch.foldl applyMarketUpsert table
  if ¬ (batch.all marketRowValid) then (table, .error "IntegrityError")
  else if ¬ commitOk then (table, .error "OperationalError")
  else (processed, .ok batch.length)

/-- Natural-key match for `price_snapshots` rows:
`(market_id, outcome_id, timestamp, source)` (`uq_price_snapshots`). -/
def snapshotKeyMatches (row r : SnapshotRecord) : Bool :=
  row.market_id == r.market_id && row.outcome_id == r.outcome_id &&
    row.timestamp == r.timestamp && row.source == r.source

/-- Non-key overwrite for `price_snapshots` rows. -/
def overwriteSnapshotNonKey (row r : SnapshotRecord) : SnapshotRecord :=
  { r with market_id := row.market_id, outcome_id := row.outcome_id,
           timestamp := row.timestamp, source := row.source }

/-- One upsert step of `store_price_snapshots`. -/
def applySnapshotUpsert : List SnapshotRecord → SnapshotRecord → List SnapshotRecord
  | [], r => [r]
  | row :: rest, r =>
    if snapshotKeyMatches row r then overwriteSnapshotNonKey row r :: rest
    else row :: applySnapshotUpsert rest r

/-- NOT NULL check for `price_snapshots` rows: `implied_probability` is
`Float NOT NULL` (`timestamp` is non-optional by construction). -/
def snapshotRowValid (r : SnapshotRecord) : Bool :=
  r.implied_probability.isSome

/-- `PostgresStorage.store_price_snapshots`. -/
def store_price_snapshots (commitOk : Bool) (table : List SnapshotRecord)
    (batch : List SnapshotRecord) : List SnapshotRecord × Except String Nat :=
  let processed := batch.foldl applySnapshotUpsert table
  if ¬ (batch.all snapshotRowValid) then (table, .error "IntegrityError")
  else if ¬ commitOk then (table, .error "OperationalError")
  else (processed, .ok batch.length)

/-- `ingestion_checkpoints` row upsert keyed on `(source, data_type)`
(`PostgresStorage.update_checkpoint`): overwrite the timestamp of the
existing row, or insert a new row. -/
def upsertCheckpoint : List ((String × String) × DateTime) → String → String →
    DateTime → List ((String × String) × DateTime)
  | [], s, d, t => [((s, d), t)]
  | c :: rest, s, d, t =>
    if c.1.1 == s && c.1.2 == d then (c.1, t) :: rest
    else c :: upsertCheckpoint rest s d t

/-- Full persisted state owned by the storage backend. -/
structure StorageState where
  rawArchive : List (String × String)
  markets : List MarketRecord
  trades : List TradeRecord
  snapshots : List SnapshotRecord
  checkpoints : List ((String × String) × DateTime)
deriving DecidableEq, Repr

/-- The empty database. -/
def emptyState : StorageState := ⟨[], [], [], [], []⟩

/-- `PostgresStorage.get_latest_checkpoint`. -/
def getLatestCheckpoint (st : StorageState) (source dataType : String) :
    Option DateTime :=
  (st.checkpoints.find? (fun c => c.1.1 == source && c.1.2 == dataType)).map (·.2)

/-! ## Ingestion engine (`src/core/ingestion.py`)

The engine composed with the Polymarket adapter: `self.source` is
`"polymarket"` and normalization delegates to the schema functions with
that source tag. The adapter's fetch operations are passed in as functions
(the upstream API is external); each storage interaction after the fetch is
recorded in an effect trace so frame conditions can be stated. Recursive
pagination is driven by a fuel parameter bounding recursion depth. -/

/-- Observable storage/network interactions of one engine operation. -/
inductive Effect where
  | getCheckpointE (dataType : String)
  | fetchE (endpoint : String)
  | storeRawE (endpoint : String)
  | storeE (endpoint : String) (n : Nat)
  | updateCheckpointE (dataType : String) (t : DateTime)
deriving DecidableEq, Repr

/-- One page of an adapter fetch response: the `data` list and the optional
`nextCursor`. -/
structure Page where
  data : List RawDict
  nextCursor : Option String
deriving Repr

/-- `IngestionEngine.ingest_markets` (fuel bounds pagination depth; a real
run never exhausts it because upstream cursors are finite). -/
def ingest_markets (fetch : Option Nat → Option String → Page)
    (commitOk : Bool) (st : StorageState) (limit : Option Nat)
    (cursor : Option String) (storeRawFlag : Bool) :
    Nat → StorageState × List Effect × Except String Nat
  | 0 => (st, [], .error "FUEL")
  | fuel + 1 =>
    let page := fetch limit cursor
    let tr : List Effect := [.fetchE "markets"]
    if page.data.isEmpty then (st, tr, .ok 0)
    else
      let (st1, tr1) :=
        if storeRawFlag then
          ({ st with rawArchive := st.rawArchive ++ [("polymarket", "markets")] },
            tr ++ [.storeRawE "markets"])
        else (st, tr)
      let normalized := page.data.map (fun r => normalize_market_from_raw r "polymarket")
      let (newRows, res) := store_markets commitOk st1.markets normalized
      let st2 := { st1 with markets := newRows }
      let tr2 := tr1 ++ [.storeE "markets" normalized.length]
      match res with
      | .error e => (st2, tr2, .error e)
      | .ok count =>
        match page.nextCursor with
        | some c =>
          if limit = none ∨ limit = some page.data.length then
            let (st3, tr3, res2) :=
              ingest_markets fetch commitOk st2 limit (some c) storeRawFlag fuel
            match res2 with
            | .error e => (st3, tr2 ++ tr3, .error e)
            | .ok additional => (st3, tr2 ++ tr3, .ok (count + additional))
          else (st2, tr2, .ok count)
        | none => (st2, tr2, .ok count)

/-- `IngestionEngine.ingest_trades`: resolve `since` from the checkpoint
when absent, fetch, short-circuit on an empty page, archive raw, normalize,
store, advance the `(polymarket, trades)` checkpoint to the maximum
timestamp of the page's normalized records (Python `max` raising on an
empty sequence is the `.error ValueError` branch), then paginate. -/
def ingest_trades (fetch : Option String → Option DateTime → Page)
    (commitOk : Bool) (st : StorageState) (since : Option DateTime)
    (limit : Option Nat) (cursor : Option String) (storeRawFlag : Bool) :
    Nat → StorageState × List Effect × Except String Nat
  | 0 => (st, [], .error "FUEL")
  | fuel + 1 =>
    let sinceRes : Option DateTime × List Effect :=
      match since with
      | some s => (some s, [])
      | none => (getLatestCheckpoint st "polymarket" "trades", [.getCheckpointE "trades"])
    let since2 := sinceRes.1
    let page := fetch cursor since2
    let tr := sinceRes.2 ++ [Effect.fetchE "trades"]
    if page.data.isEmpty then (st, tr, .ok 0)
    else
      let (st1, tr1) :=
        if storeRawFlag then
          ({ st with rawArchive := st.rawArchive ++ [("polymarket", "trades")] },
            tr ++ [.storeRawE "trades"])
        else (st, tr)
      let normalized := page.data.map (fun r => normalize_trade_from_raw r "polymarket")
      let (newRows, res) := store_trades commitOk st1.trades normalized
      let st2 := { st1 with trades := newRows }
      let tr2 := tr1 ++ [.storeE "trades" normalized.length]
      match res with
      | .error e => (st2, tr2, .error e)
      | .ok count =>
        match pythonMaxDT (normalized.filterMap (·.timestamp)) with
        | none => (st2, tr2, .error "ValueError")
        | some latest =>
          let st3 := { st2 with
            checkpoints := upsertCheckpoint st2.checkpoints "polymarket" "trades" latest }
          let tr3 := tr2 ++ [Effect.updateCheckpointE "trades" latest]
          match page.nextCursor with
          | some c =>
            if limit = none ∨ limit = some page.data.length then
              let (st4, tr4, res2) :=
                ingest_trades fetch commitOk st3 since2 limit (some c) storeRawFlag fuel
              match res2 with
              | .error e => (st4, tr3 ++ tr4, .error e)
              | .ok additional => (st4, tr3 ++ tr4, .ok (count + additional))
            else (st3, tr3, .ok count)
          | none => (st3, tr3, .ok count)

/-- `IngestionEngine.ingest_price_snapshots`: no checkpoint read before the
fetch, no pagination; otherwise the same page shape as trades, with the
`(polymarket, price_snapshots)` checkpoint advanced after the store. `now`
stands for `datetime.utcnow()` during normalization. -/
def ingest_price_snapshots (fetch : Option DateTime → List RawDict)
    (commitOk : Bool) (st : StorageState) (since : Option DateTime)
    (storeRawFlag : Bool) (now : DateTime) :
    StorageState × List Effect × Except String Nat :=
  let rawSnapshots := fetch since
  let tr : List Effect := [.fetchE "price_snapshots"]
  if rawSnapshots.isEmpty then (st, tr, .ok 0)
  else
    let (st1, tr1) :=
      if storeRawFlag then
        ({ st with rawArchive := st.rawArchive ++ [("polymarket", "price_snapshots")] },
          tr ++ [.storeRawE "price_snapshots"])
      else (st, tr)
    let normalized := rawSnapshots.map
      (fun r => normalize_price_snapshot_from_raw r "polymarket" now)
    let (newRows, res) := store_price_snapshots commitOk st1.snapshots normalized
    let st2 := { st1 with snapshots := newRows }
    let tr2 := tr1 ++ [.storeE "price_snapshots" normalized.length]
    match res with
    | .error e => (st2, tr2, .error e)
    | .ok count =>
      match pythonMaxDT (normalized.map (·.timestamp)) with
      | none => (st2, tr2, .error "ValueError")
      | some latest =>
        let st3 := { st2 with
          checkpoints :=
            upsertCheckpoint st2.checkpoints "polymarket" "price_snapshots" latest }
        (st3, tr2 ++ [Effect.updateCheckpointE "price_snapshots" latest], .ok count)

/-! ## HTTP client retry policy (`src/connectors/polymarket/client.py`)

`PolymarketClient._request` is decorated with a retry policy: retry only on
transport errors (`httpx.TimeoutException`, `httpx.NetworkError`), stop
after 3 attempts. Inside the request body, a non-2xx response raises
`HTTPStatusError`, which is logged with the status code and the first 500
characters of the body, counted under a status tag, and re-raised — the
policy does not retry it. The network is modelled as an oracle giving the
outcome of each attempt. -/

/-- Outcome of one network attempt. -/
inductive AttemptOutcome where
  | success (body : String)
  | transportError (kind : String)
  | httpError (status : Nat) (body : String)

/-- Is this outcome a transport error (retryable)? -/
def isTransport : AttemptOutcome → Bool
  | .transportError _ => true
  | _ => false

/-- What `_request` ultimately surfaces to its caller. -/
inductive RequestResult where
  | ok (body : String)
  | transportFailure (kind : String)
  | httpFailure (status : Nat)
deriving DecidableEq, Repr

/-- Is the surfaced result a transport failure? -/
def isTransportFailure : RequestResult → Bool
  | .transportFailure _ => true
  | _ => false

/-- Observable record of one `_request` call: attempts made, the
success-counter increments, the error-counter tags, and the logged
(status, truncated body) of an HTTP error. -/
structure ClientTrace where
  attempts : Nat
  successCount : Nat
  errorTags : List String
  loggedHttpError : Option (Nat × String)
deriving DecidableEq, Repr

/-- The retry loop of the policy: `remaining` attempts allowed, `idx` the
zero-based index of the next attempt. A success returns; an HTTP error is
logged/counted and propagates immediately; a transport error is counted
and retried while attempts remain, else surfaces. -/
def retryLoop (oracle : Nat → AttemptOutcome) :
    Nat → Nat → ClientTrace → RequestResult × ClientTrace
  | 0, _, acc => (.transportFailure "RetryError", acc)
  | remaining + 1, idx, acc =>
    match oracle idx with
    | .success b =>
      (.ok b, { acc with attempts := acc.attempts + 1,
                         successCount := acc.successCount + 1 })
    | .httpError s b =>
      (.httpFailure s,
        { acc with attempts := acc.attempts + 1,
                   errorTags := acc.errorTags ++ ["status:" ++ toString s],
                   loggedHttpError := some (s, b.take 500) })
    | .transportError k =>
      let acc1 := { acc with attempts := acc.attempts + 1,
                             errorTags := acc.errorTags ++ ["error_type:" ++ k] }
      if remaining = 0 then (.transportFailure k, acc1)
      else retryLoop oracle remaining (idx + 1) acc1

/-- `PolymarketClient._request` under its retry decoration:
`stop_after_attempt(3)`, starting from a fresh trace. -/
def clientRequest (oracle : Nat → AttemptOutcome) : RequestResult × ClientTrace :=
  retryLoop oracle 3 0 ⟨0, 0, [], none⟩

/-! ## CLI commands (`cli/commands.py`)

Each command constructs the storage backend (`get_storage()` — a
`PostgresStorage` with `create_tables=True`, which connects to the
database, creates the schema and creates all tables) and the adapter
before doing anything else; these constructions are recorded as the
`storageInit` and `adapterInit` effects. Validation of operator input
happens after them; ingestion work is recorded as `ingestCall`. -/

/-- Observable side effects of a CLI command. -/
inductive CliEffect where
  | storageInit
  | adapterInit
  | ingestCall (since : Option DateTime)
deriving DecidableEq, Repr

/-- Outcome of a CLI command: process exit code, effect trace, reported
grand total. -/
structure CmdOut where
  exitCode : Nat
  trace : List CliEffect
  total : Nat
deriving DecidableEq, Repr

/-- `current.replace(hour=23, minute=59, second=59)`. -/
def dayEnd (d : DateTime) : DateTime :=
  { d with hour := 23, minute := 59, second := 59 }

/-- `next_day.replace(hour=0, minute=0, second=0) + timedelta(days=1)`. -/
def nextCursorDay (nd : DateTime) : DateTime :=
  DateTime.addOneDay { nd with hour := 0, minute := 0, second := 0 }

/-- The day-by-day loop of the `backfill` command for trades: yields the
list of (cursor, computed day end) windows and the accumulated grand total.
`counts since` stands for the stored count returned by
`engine.ingest_trades(since=since)`. Fuel bounds the iteration count. -/
def backfillLoop (counts : DateTime → Nat) (endDt : DateTime) :
    Nat → DateTime → List (DateTime × DateTime) × Nat
  | 0, _ => ([], 0)
  | fuel + 1, current =>
    if dtLt current endDt then
      let nd0 := dayEnd current
      let nd := if dtLt endDt nd0 then endDt else nd0
      let c := counts current
      let rest := backfillLoop counts endDt fuel (nextCursorDay nd)
      ((current, nd) :: rest.1, c + rest.2)
    else ([], 0)

/-- The `backfill` CLI command: storage and adapter construction, then date
parsing (exit 1 on failure), the `start < end` check (exit 1 on violation),
then for "trades" the day-by-day loop and for "prices" the
not-implemented exit 1. -/
def backfillCmd (counts : DateTime → Nat) (fuel : Nat)
    (start endStr dataType : String) : CmdOut :=
  let tr : List CliEffect := [.storageInit, .adapterInit]
  match parseDateStr start, parseDateStr endStr with
  | some s, some e =>
    if dtLe e s then ⟨1, tr, 0⟩
    else if dataType = "trades" then
      let r := backfillLoop counts e fuel s
      ⟨0, tr ++ r.1.map (fun w => .ingestCall (some w.1)), r.2⟩
    else ⟨1, tr, 0⟩
  | _, _ => ⟨1, tr, 0⟩

/-- The `trades` CLI command: storage and adapter construction, then the
`--since` parse (exit 1 on failure), then one engine invocation.
`ingestCount` stands for the engine's returned count. -/
def tradesCmd (ingestCount : Nat) (since : Option String) : CmdOut :=
  let tr : List CliEffect := [.storageInit, .adapterInit]
  match since with
  | some s =>
    match parseDateStr s with
    | none => ⟨1, tr, 0⟩
    | some d => ⟨0, tr ++ [.ingestCall (some d)], ingestCount⟩
  | none => ⟨0, tr ++ [.ingestCall none], ingestCount⟩

/-! ## Shared helper lemmas and sample records -/

/-- Checkpoint lookup after a checkpoint upsert of the same key yields the
upserted timestamp. -/
lemma getLatest_upsert (cps : List ((String × String) × DateTime)) (s d : String)
    (t : DateTime) :
    ((upsertCheckpoint cps s d t).find? (fun c => c.1.1 == s && c.1.2 == d)).map (·.2) =
      some t := by
  induction cps with
  | nil => simp [upsertCheckpoint, List.find?]
  | cons c rest ih =>
    by_cases hk : (c.1.1 == s && c.1.2 == d) = true
    · simp [upsertCheckpoint, hk, List.find?]
    · have hk' : (c.1.1 == s && c.1.2 == d) = false := by simpa using hk
      simp [upsertCheckpoint, hk', List.find?, ih]

/-- When the defensive float parse yields nothing under an absent default,
it yields exactly the caller's default under any default. -/
lemma parse_float_default (v : RawValue) (d : Option ℚ)
    (h : _parse_float v none = none) : _parse_float v d = d := by
  cases v
  case vStr s =>
    cases hp : parseFloatStr s
    · simp [_parse_float, hp]
    · simp [_parse_float, hp] at h
  all_goals simp_all [_parse_float]

/-- A nonempty list is not `isEmpty`. -/
lemma isEmpty_false_of_ne_nil {α : Type} {l : List α} (h : l ≠ []) :
    l.isEmpty = false := by
  cases l with
  | nil => exact absurd rfl h
  | cons a t => rfl

/-- An absent key makes `raw.get(k, d)` yield the default `d`. -/
lemma rawGetD_absent (raw : RawDict) (k : String) (d : RawValue)
    (h : rawHas raw k = false) : rawGetD raw k d = d := by
  unfold rawHas at h
  unfold rawGetD
  cases hf : raw.find? (fun kv => kv.1 == k) with
  | none => rfl
  | some kv => rw [hf] at h; simp at h

/-- Sample normalized trade record used by concrete witnesses. -/
def twA : TradeRecord :=
  { trade_id := "t1", source := "polymarket", market_id := "m1", outcome_id := "YES",
    price := some (13/20), quantity := some 100,
    timestamp := some ⟨2024, 1, 1, 12, 0, 0⟩,
    side := .vStr "buy", taker_address := .vNull, maker_address := .vNull,
    transaction_hash := .vNull, raw_data := [] }

/-- Second write for the same natural key as `twA`, different non-key
fields. -/
def twB : TradeRecord :=
  { twA with price := some (7/10), quantity := some 50, side := .vStr "sell" }

/-- An invalid trade row: its `timestamp` is absent, violating the table's
NOT NULL constraint at commit. -/
def twBad : TradeRecord := { twA with trade_id := "t9", timestamp := none }

/-! ## Claims -/

/-- C1: every batch passed to `store_trades` is upserted by the natural key
`(trade_id, source)` — an existing row has every non-key column overwritten
with the incoming values while the key columns stay unchanged, a missing
key is inserted — the returned count equals the batch size regardless of
the insert/update mix, and storing the same trade twice leaves exactly one
row carrying the second write's non-key fields, each call returning 1. -/
theorem C1_store_trades_upsert :
    (∀ (commitOk : Bool) (table batch post : List TradeRecord) (n : Nat),
        store_trades commitOk table batch = (post, .ok n) → n = batch.length) ∧
    (∀ (table : List TradeRecord) (r : TradeRecord),
        (∀ row ∈ table, tradeKeyMatches row r = false) →
        applyTradeUpsert table r = table ++ [r]) ∧
    (∀ (table : List TradeRecord) (r : TradeRecord),
        (∃ row ∈ table, tradeKeyMatches row r = true) →
        ∃ t1 row t2, table = t1 ++ row :: t2 ∧
          (∀ x ∈ t1, tradeKeyMatches x r = false) ∧ tradeKeyMatches row r = true ∧
          applyTradeUpsert table r = t1 ++ overwriteTradeNonKey row r :: t2) ∧
    (∀ (r1 r2 : TradeRecord),
        r1.trade_id = r2.trade_id → r1.source = r2.source →
        tradeRowValid r1 = true → tradeRowValid r2 = true →
        store_trades true [] [r1] = ([r1], .ok 1) ∧
        store_trades true [r1] [r2] = ([r2], .ok 1)) := by
  refine ⟨?_, ?_, ?_, ?_⟩
  · intro commitOk table batch post n h
    unfold store_trades at h
    split at h
    · exact absurd (congrArg Prod.snd h) (by simp)
    · split at h
      · exact absurd (congrArg Prod.snd h) (by simp)
      · exact (Except.ok.inj (congrArg Prod.snd h)).symm
  · intro table r
    induction table with
    | nil => intro; rfl
    | cons row rest ih =>
      intro hall
      have hrow := hall row (List.mem_cons_self row rest)
      have hrest := ih (fun x hx => hall x (List.mem_cons_of_mem _ hx))
      simp [applyTradeUpsert, hrow, hrest]
  · intro table r
    induction table with
    | nil =>
      rintro ⟨row, hmem, _⟩
      exact absurd hmem (List.not_mem_nil row)
    | cons row rest ih =>
      intro hex
      by_cases hk : tradeKeyMatches row r = true
      · exact ⟨[], row, rest, rfl, by simp, hk, by simp [applyTradeUpsert, hk]⟩
      · have hk' : tradeKeyMatches row r = false := by simpa using hk
        obtain ⟨row0, hmem, hmatch⟩ := hex
        have hmem' : row0 ∈ rest := by
          rcases List.mem_cons.mp hmem with h | h
          · rw [h] at hmatch; rw [hk'] at hmatch; exact absurd hmatch (by simp)
          · exact h
        obtain ⟨t1, rowx, t2, heq, hpre, hmx, happ⟩ := ih ⟨row0, hmem', hmatch⟩
        refine ⟨row :: t1, rowx, t2, by simp [heq], ?_, hmx, ?_⟩
        · intro x hx
          rcases List.mem_cons.mp hx with h | h
          · rw [h]; exact hk'
          · exact hpre x h
        · simp [applyTradeUpsert, hk', happ]
  · intro r1 r2 h1 h2 hv1 hv2
    have hk : tradeKeyMatches r1 r2 = true := by
      simp [tradeKeyMatches, h1, h2]
    have hov : overwriteTradeNonKey r1 r2 = r2 := by
      unfold overwriteTradeNonKey
      rw [h1, h2]
    constructor
    · simp [store_trades, hv1, applyTradeUpsert]
    · simp [store_trades, hv2, applyTradeUpsert, hk, hov]

/-- C1 witness: the double-store of one natural key, at concrete records. -/
theorem C1_store_trades_upsert_witness :
    store_trades true [] [twA] = ([twA], .ok 1) ∧
    store_trades true [twA] [twB] = ([twB], .ok 1) :=
  C1_store_trades_upsert.2.2.2 twA twB rfl rfl (by decide) (by decide)

/-- C2: every `store_markets` / `store_trades` / `store_price_snapshots`
call commits the whole batch as one transaction — on failure the table is
left exactly as before the call (full rollback, nothing of the batch
visible) and the error is surfaced to the caller; on success the entire
batch is applied and the count equals the batch length (no partial-batch
commit, no per-record isolation). -/
theorem C2_batch_transaction_rollback :
    (∀ (commitOk : Bool) (table batch post : List TradeRecord) (e : String),
        store_trades commitOk table batch = (post, .error e) → post = table) ∧
    (∀ (commitOk : Bool) (table batch post : List TradeRecord) (n : Nat),
        store_trades commitOk table batch = (post, .ok n) →
        post = batch.foldl applyTradeUpsert table ∧ n = batch.length) ∧
    (∀ (commitOk : Bool) (table batch post : List MarketRecord) (e : String),
        store_markets commitOk table batch = (post, .error e) → post = table) ∧
    (∀ (commitOk : Bool) (table batch post : List MarketRecord) (n : Nat),
        store_markets commitOk table batch = (post, .ok n) →
        post = batch.foldl applyMarketUpsert table ∧ n = batch.length) ∧
    (∀ (commitOk : Bool) (table batch post : List SnapshotRecord) (e : String),
        store_price_snapshots commitOk table batch = (post, .error e) → post = table) ∧
    (∀ (commitOk : Bool) (table batch post : List SnapshotRecord) (n : Nat),
        store_price_snapshots commitOk table batch = (post, .ok n) →
        post = batch.foldl applySnapshotUpsert table ∧ n = batch.length) := by
  refine ⟨?_, ?_, ?_, ?_, ?_, ?_⟩
  · intro commitOk table batch post e h
    unfold store_trades at h
    split at h
    · exact (congrArg Prod.fst h).symm
    · split at h
      · exact (congrArg Prod.fst h).symm
      · exact absurd (congrArg Prod.snd h) (by simp)
  · intro commitOk table batch post n h
    unfold store_trades at h
    split at h
    · exact absurd (congrArg Prod.snd h) (by simp)
    · split at h
      · exact absurd (congrArg Prod.snd h) (by simp)
      · exact ⟨(congrArg Prod.fst h).symm, (Except.ok.inj (congrArg Prod.snd h)).symm⟩
  · intro commitOk table batch post e h
    unfold store_markets at h
    split at h
    · exact (congrArg Prod.fst h).symm
    · split at h
      · exact (congrArg Prod.fst h).symm
      · exact absurd (congrArg Prod.snd h) (by simp)
  · intro commitOk table batch post n h
    unfold store_markets at h
    split at h
    · exact absurd (congrArg Prod.snd h) (by simp)
    · split at h
      · exact absurd (congrArg Prod.snd h) (by simp)
      · exact ⟨(congrArg Prod.fst h).symm, (Except.ok.inj (congrArg Prod.snd h)).symm⟩
  · intro commitOk table batch post e h
    unfold store_price_snapshots at h
    split at h
    · exact (congrArg Prod.fst h).symm
    · split at h
      · exact (congrArg Prod.fst h).symm
      · exact absurd (congrArg Prod.snd h) (by simp)
  · intro commitOk table batch post n h
    unfold store_price_snapshots at h
    split at h
    · exact absurd (congrArg Prod.snd h) (by simp)
    · split at h
      · exact absurd (congrArg Prod.snd h) (by simp)
      · exact ⟨(congrArg Prod.fst h).symm, (Except.ok.inj (congrArg Prod.snd h)).symm⟩

/-- C2 witness: a batch containing one invalid record is rolled back in
full — the valid record of the same batch does not become visible. -/
theorem C2_batch_transaction_rollback_witness :
    store_trades true [twA] [twBad, twB] = ([twA], .error "IntegrityError") ∧
    ([twA] : List TradeRecord) = [twA] :=
  ⟨rfl,
   C2_batch_transaction_rollback.1 true [twA] [twBad, twB] [twA] "IntegrityError" rfl⟩

/-- Stub adapter answering every trades fetch with one single-record page
whose record has no timestamp field. -/
def c3Fetch : Option String → Option DateTime → Page :=
  fun _ _ => { data := [[("id", .vStr "t1")]], nextCursor := none }

/-- C3 counterexample: a trades page in which no record has a timestamp
does NOT complete normally — the batch store fails the NOT NULL timestamp
constraint, the error propagates out of the ingestion operation, and no
checkpoint is written. This refutes the claim that the operation completes
normally without raising in that case. -/
theorem C3_no_timestamp_page_raises :
    (ingest_trades c3Fetch true emptyState (some ⟨2024, 1, 1, 0, 0, 0⟩)
        none none false 1).2.2 = .error "IntegrityError" ∧
    (ingest_trades c3Fetch true emptyState (some ⟨2024, 1, 1, 0, 0, 0⟩)
        none none false 1).1.checkpoints = [] :=
  ⟨rfl, rfl⟩

/-- C3 (amended): for a terminal trades page (no further pagination cursor)
whose normalized records all satisfy the row constraints, the engine stores
the batch and advances the `(polymarket, trades)` checkpoint to the maximum
timestamp among that page's normalized records; and a page none of whose
records carries a timestamp does not complete normally — the store fails,
the error propagates, and neither the trades table nor any checkpoint
changes. -/
theorem C3_checkpoint_advance :
    (∀ (fetch : Option String → Option DateTime → Page) (st : StorageState)
        (since : DateTime) (limit : Option Nat) (flag : Bool) (latest : DateTime),
        (fetch none (some since)).data ≠ [] →
        (fetch none (some since)).nextCursor = none →
        (((fetch none (some since)).data.map
            (fun r => normalize_trade_from_raw r "polymarket")).all tradeRowValid) = true →
        pythonMaxDT (((fetch none (some since)).data.map
            (fun r => normalize_trade_from_raw r "polymarket")).filterMap (·.timestamp)) =
          some latest →
        (ingest_trades fetch true st (some since) limit none flag 1).2.2 =
            .ok (fetch none (some since)).data.length ∧
        getLatestCheckpoint (ingest_trades fetch true st (some since) limit none flag 1).1
            "polymarket" "trades" = some latest) ∧
    (∀ (fetch : Option String → Option DateTime → Page) (st : StorageState)
        (since : DateTime) (limit : Option Nat) (flag : Bool),
        (fetch none (some since)).data ≠ [] →
        (∃ t ∈ (fetch none (some since)).data.map
            (fun r => normalize_trade_from_raw r "polymarket"), t.timestamp = none) →
        (ingest_trades fetch true st (some since) limit none flag 1).2.2 =
            .error "IntegrityError" ∧
        (ingest_trades fetch true st (some since) limit none flag 1).1.checkpoints =
            st.checkpoints ∧
        (ingest_trades fetch true st (some since) limit none flag 1).1.trades =
            st.trades) := by
  constructor
  · intro fetch st since limit flag latest hne hcur hval hmax
    have hemp := isEmpty_false_of_ne_nil hne
    simp only [List.filterMap_map] at hmax
    cases flag <;>
      simp [ingest_trades, hemp, store_trades, hval, hmax, hcur,
        getLatestCheckpoint, getLatest_upsert]
  · intro fetch st since limit flag hne hex
    have hemp := isEmpty_false_of_ne_nil hne
    have hval : (((fetch none (some since)).data.map
        (fun r => normalize_trade_from_raw r "polymarket")).all tradeRowValid) = false := by
      obtain ⟨t, hmem, hts⟩ := hex
      refine List.all_eq_false.mpr ⟨t, hmem, ?_⟩
      simp [tradeRowValid, hts]
    cases flag <;>
      simp [ingest_trades, hemp, store_trades, hval]

/-- Stub adapter answering every trades fetch with a three-record page
whose timestamps are T1 < T2 < T3. -/
def c3FetchW : Option String → Option DateTime → Page :=
  fun _ _ =>
    { data :=
        [[("id", .vStr "a"), ("timestamp", .vStr "2024-01-01T00:00:01")],
         [("id", .vStr "b"), ("timestamp", .vStr "2024-01-01T00:00:02")],
         [("id", .vStr "c"), ("timestamp", .vStr "2024-01-01T00:00:03")]],
      nextCursor := none }

/-- C3 witness: ingesting a page with timestamps T1 < T2 < T3 stores 3
records and leaves the `(polymarket, trades)` checkpoint at T3. -/
theorem C3_checkpoint_advance_witness :
    (ingest_trades c3FetchW true emptyState (some ⟨2024, 1, 1, 0, 0, 0⟩)
        none none false 1).2.2 = .ok 3 ∧
    getLatestCheckpoint (ingest_trades c3FetchW true emptyState
        (some ⟨2024, 1, 1, 0, 0, 0⟩) none none false 1).1
        "polymarket" "trades" = some ⟨2024, 1, 1, 0, 0, 3⟩ :=
  C3_checkpoint_advance.1 c3FetchW emptyState ⟨2024, 1, 1, 0, 0, 0⟩ none false
    ⟨2024, 1, 1, 0, 0, 3⟩ (by decide) rfl (by decide) (by decide)

/-- C4: normalization is total and defensive — an unparsable or absent
numeric field yields the documented default (0.0 for trade price/quantity
and snapshot implied probability, absent otherwise), and an unparsable or
absent timestamp yields no value, except the price-snapshot timestamp,
which defaults to the current instant. -/
theorem C4_defensive_normalization :
    ∀ (raw : RawDict) (source : String) (now : DateTime),
      (_parse_float (rawGet raw "price") none = none →
        (normalize_trade_from_raw raw source).price = some 0) ∧
      (_parse_float (rawGet raw "quantity") none = none →
        (normalize_trade_from_raw raw source).quantity = some 0) ∧
      (_parse_datetime (rawGet raw "timestamp") = none →
        (normalize_trade_from_raw raw source).timestamp = none) ∧
      (_parse_float (rawGet raw "impliedProbability") none = none →
        (normalize_price_snapshot_from_raw raw source now).implied_probability = some 0) ∧
      (_parse_datetime (rawGet raw "timestamp") = none →
        (normalize_price_snapshot_from_raw raw source now).timestamp = now) ∧
      (_parse_float (rawGet raw "bid") none = none →
        (normalize_price_snapshot_from_raw raw source now).bid = none) ∧
      (_parse_float (rawGet raw "liquidity") none = none →
        (normalize_market_from_raw raw source).liquidity = none) ∧
      (_parse_float (rawGet raw "volume24h") none = none →
        (normalize_market_from_raw raw source).volume_24h = none) ∧
      (_parse_datetime (rawGet raw "endDate") = none →
        (normalize_market_from_raw raw source).end_date = none) ∧
      (_parse_datetime (rawGet raw "createdAt") = none →
        (normalize_market_from_raw raw source).created_at = none) := by
  intro raw source now
  refine ⟨?_, ?_, ?_, ?_, ?_, ?_, ?_, ?_, ?_, ?_⟩
  · intro h
    simp only [normalize_trade_from_raw]
    exact parse_float_default _ _ h
  · intro h
    simp only [normalize_trade_from_raw]
    exact parse_float_default _ _ h
  · intro h
    simp [normalize_trade_from_raw, h]
  · intro h
    simp only [normalize_price_snapshot_from_raw]
    exact parse_float_default _ _ h
  · intro h
    simp [normalize_price_snapshot_from_raw, h]
  · intro h
    simp [normalize_price_snapshot_from_raw, h]
  · intro h
    simp [normalize_market_from_raw, h]
  · intro h
    simp [normalize_market_from_raw, h]
  · intro h
    simp [normalize_market_from_raw, h]
  · intro h
    simp [normalize_market_from_raw, h]

/-- Malformed raw payload: unparsable number and timestamp text, a
non-numeric structure, an explicit null. -/
def rawMalformed : RawDict :=
  [("price", .vStr "abc"), ("quantity", .vEmptyList),
   ("timestamp", .vStr "not-a-date"), ("impliedProbability", .vNull),
   ("liquidity", .vStr "12.3.4"), ("endDate", .vStr "junk")]

/-- C4 witness: the malformed payload normalizes with the documented
defaults, no exception anywhere. -/
theorem C4_defensive_normalization_witness :
    (normalize_trade_from_raw rawMalformed "polymarket").price = some 0 ∧
    (normalize_trade_from_raw rawMalformed "polymarket").timestamp = none ∧
    (normalize_price_snapshot_from_raw rawMalformed "polymarket"
        ⟨2024, 6, 1, 0, 0, 0⟩).timestamp = ⟨2024, 6, 1, 0, 0, 0⟩ ∧
    (normalize_market_from_raw rawMalformed "polymarket").liquidity = none := by
  have h := C4_defensive_normalization rawMalformed "polymarket" ⟨2024, 6, 1, 0, 0, 0⟩
  exact ⟨h.1 rfl, h.2.2.1 rfl, h.2.2.2.2.1 rfl, h.2.2.2.2.2.2.1 rfl⟩

/-- C5: for price snapshots, a missing `mid` with bid and ask both present
derives `mid = (bid + ask) / 2`, a missing `spread` with both present
derives `spread = ask - bid`, and supplied `mid` / `spread` values are
preserved unchanged regardless of bid and ask. -/
theorem C5_snapshot_derived_fields :
    ∀ (raw : RawDict) (source : String) (now : DateTime) (b a m sp : ℚ),
      (_parse_float (rawGet raw "mid") none = none →
       _parse_float (rawGet raw "bid") none = some b →
       _parse_float (rawGet raw "ask") none = some a →
       (normalize_price_snapshot_from_raw raw source now).mid = some ((b + a) / 2)) ∧
      (_parse_float (rawGet raw "spread") none = none →
       _parse_float (rawGet raw "bid") none = some b →
       _parse_float (rawGet raw "ask") none = some a →
       (normalize_price_snapshot_from_raw raw source now).spread = some (a - b)) ∧
      (_parse_float (rawGet raw "mid") none = some m →
       (normalize_price_snapshot_from_raw raw source now).mid = some m) ∧
      (_parse_float (rawGet raw "spread") none = some sp →
       (normalize_price_snapshot_from_raw raw source now).spread = some sp) := by
  intro raw source now b a m sp
  refine ⟨?_, ?_, ?_, ?_⟩
  · intro hm hb ha
    simp [normalize_price_snapshot_from_raw, hm, hb, ha]
  · intro hsp hb ha
    simp [normalize_price_snapshot_from_raw, hsp, hb, ha]
  · intro hm
    cases hb : _parse_float (rawGet raw "bid") none <;>
      cases ha : _parse_float (rawGet raw "ask") none <;>
        simp [normalize_price_snapshot_from_raw, hm, hb, ha]
  · intro hsp
    cases hb : _parse_float (rawGet raw "bid") none <;>
      cases ha : _parse_float (rawGet raw "ask") none <;>
        simp [normalize_price_snapshot_from_raw, hsp, hb, ha]

/-- Raw snapshot payload with bid 0.64 and ask 0.66 (as JSON numbers), no
mid or spread. -/
def rawBidAsk : RawDict := [("bid", .vNum (16 / 25)), ("ask", .vNum (33 / 50))]

/-- Raw snapshot payload with the same bid/ask plus an explicit mid 0.5. -/
def rawBidAskMid : RawDict :=
  [("bid", .vNum (16 / 25)), ("ask", .vNum (33 / 50)), ("mid", .vNum (1 / 2))]

/-- C5 witness: bid 0.64 / ask 0.66 derive mid 0.65 and spread 0.02, and a
supplied mid 0.5 is preserved. -/
theorem C5_snapshot_derived_fields_witness :
    (normalize_price_snapshot_from_raw rawBidAsk "polymarket"
        ⟨2024, 1, 1, 0, 0, 0⟩).mid = some (13 / 20) ∧
    (normalize_price_snapshot_from_raw rawBidAsk "polymarket"
        ⟨2024, 1, 1, 0, 0, 0⟩).spread = some (1 / 50) ∧
    (normalize_price_snapshot_from_raw rawBidAskMid "polymarket"
        ⟨2024, 1, 1, 0, 0, 0⟩).mid = some (1 / 2) := by
  have h := C5_snapshot_derived_fields rawBidAsk "polymarket" ⟨2024, 1, 1, 0, 0, 0⟩
    (16 / 25) (33 / 50) 0 0
  have h2 := C5_snapshot_derived_fields rawBidAskMid "polymarket" ⟨2024, 1, 1, 0, 0, 0⟩
    (16 / 25) (33 / 50) (1 / 2) 0
  refine ⟨?_, ?_, h2.2.2.1 rfl⟩
  · have := h.1 rfl rfl rfl
    rw [this]
    norm_num
  · have := h.2.1 rfl rfl rfl
    rw [this]
    norm_num

/-- C6: every ingestion operation (markets, trades, price snapshots) whose
fetched page has an empty data list returns 0 and performs no storage
effect after the fetch — no raw archive write, no normalized store and no
checkpoint read or update follow the fetch, and the storage state is left
untouched. (For trades without an explicit `since`, the one checkpoint read
happens before the fetch.) -/
theorem C6_empty_page_short_circuit :
    (∀ (fetch : Option Nat → Option String → Page) (commitOk : Bool)
        (st : StorageState) (limit : Option Nat) (cursor : Option String)
        (flag : Bool) (fuel : Nat),
        (fetch limit cursor).data = [] →
        ingest_markets fetch commitOk st limit cursor flag (fuel + 1) =
          (st, [.fetchE "markets"], .ok 0)) ∧
    (∀ (fetch : Option String → Option DateTime → Page) (commitOk : Bool)
        (st : StorageState) (since : DateTime) (limit : Option Nat)
        (cursor : Option String) (flag : Bool) (fuel : Nat),
        (fetch cursor (some since)).data = [] →
        ingest_trades fetch commitOk st (some since) limit cursor flag (fuel + 1) =
          (st, [.fetchE "trades"], .ok 0)) ∧
    (∀ (fetch : Option String → Option DateTime → Page) (commitOk : Bool)
        (st : StorageState) (limit : Option Nat) (cursor : Option String)
        (flag : Bool) (fuel : Nat),
        (fetch cursor (getLatestCheckpoint st "polymarket" "trades")).data = [] →
        ingest_trades fetch commitOk st none limit cursor flag (fuel + 1) =
          (st, [.getCheckpointE "trades", .fetchE "trades"], .ok 0)) ∧
    (∀ (fetch : Option DateTime → List RawDict) (commitOk : Bool)
        (st : StorageState) (since : Option DateTime) (flag : Bool)
        (now : DateTime),
        fetch since = [] →
        ingest_price_snapshots fetch commitOk st since flag now =
          (st, [.fetchE "price_snapshots"], .ok 0)) := by
  refine ⟨?_, ?_, ?_, ?_⟩
  · intro fetch commitOk st limit cursor flag fuel h
    simp [ingest_markets, h]
  · intro fetch commitOk st since limit cursor flag fuel h
    simp [ingest_trades, h]
  · intro fetch commitOk st limit cursor flag fuel h
    simp [ingest_trades, h]
  · intro fetch commitOk st since flag now h
    simp [ingest_price_snapshots, h]

/-- Adapter stub whose markets fetch always yields an empty page. -/
def emptyMarketsFetch : Option Nat → Option String → Page := fun _ _ => ⟨[], none⟩

/-- Adapter stub whose trades fetch always yields an empty page. -/
def emptyTradesFetch : Option String → Option DateTime → Page := fun _ _ => ⟨[], none⟩

/-- Adapter stub whose snapshot fetch always yields an empty list. -/
def emptySnapsFetch : Option DateTime → List RawDict := fun _ => []

/-- C6 witness: empty pages short-circuit each of the three operations on a
concrete empty database. -/
theorem C6_empty_page_short_circuit_witness :
    ingest_markets emptyMarketsFetch true emptyState none none true 1 =
      (emptyState, [.fetchE "markets"], .ok 0) ∧
    ingest_trades emptyTradesFetch true emptyState none none none true 1 =
      (emptyState, [.getCheckpointE "trades", .fetchE "trades"], .ok 0) ∧
    ingest_price_snapshots emptySnapsFetch true emptyState none true
        ⟨2024, 1, 1, 0, 0, 0⟩ =
      (emptyState, [.fetchE "price_snapshots"], .ok 0) :=
  ⟨C6_empty_page_short_circuit.1 emptyMarketsFetch true emptyState none none true 0 rfl,
   C6_empty_page_short_circuit.2.2.1 emptyTradesFetch true emptyState none none true 0 rfl,
   C6_empty_page_short_circuit.2.2.2 emptySnapsFetch true emptyState none true
     ⟨2024, 1, 1, 0, 0, 0⟩ rfl⟩

/-- C7 counterexample: a backfill invocation with a reversed date range
does exit with code 1, but its effect trace contains the storage-backend
initialization (database connection, schema and table creation performed by
`get_storage()` before any validation) — so the claim that zero storage
calls are performed on invalid input is false. -/
theorem C7_storage_init_before_validation :
    (backfillCmd (fun _ => 0) 8 "2024-01-02" "2024-01-01" "trades").exitCode = 1 ∧
    CliEffect.storageInit ∈
      (backfillCmd (fun _ => 0) 8 "2024-01-02" "2024-01-01" "trades").trace := by
  decide

/-- C7 (amended): invalid operator input — unparsable backfill dates, a
start not strictly before the end, the unsupported prices backfill path, or
unparsable `--since` text on the trades command — exits with code 1 before
any ingestion work (no fetch, no store, no checkpoint access); however the
storage backend and adapter are constructed before validation, so storage
initialization (connection plus schema/table creation) does occur. -/
theorem C7_invalid_input_exits_before_ingestion :
    (∀ (counts : DateTime → Nat) (fuel : Nat) (start endStr dt : String),
        parseDateStr start = none ∨ parseDateStr endStr = none →
        backfillCmd counts fuel start endStr dt =
          ⟨1, [.storageInit, .adapterInit], 0⟩) ∧
    (∀ (counts : DateTime → Nat) (fuel : Nat) (start endStr dt : String)
        (s e : DateTime),
        parseDateStr start = some s → parseDateStr endStr = some e →
        dtLe e s = true →
        backfillCmd counts fuel start endStr dt =
          ⟨1, [.storageInit, .adapterInit], 0⟩) ∧
    (∀ (counts : DateTime → Nat) (fuel : Nat) (start endStr : String)
        (s e : DateTime),
        parseDateStr start = some s → parseDateStr endStr = some e →
        dtLe e s = false →
        backfillCmd counts fuel start endStr "prices" =
          ⟨1, [.storageInit, .adapterInit], 0⟩) ∧
    (∀ (n : Nat) (sinceText : String),
        parseDateStr sinceText = none →
        tradesCmd n (some sinceText) = ⟨1, [.storageInit, .adapterInit], 0⟩) := by
  refine ⟨?_, ?_, ?_, ?_⟩
  · intro counts fuel start endStr dt h
    rcases h with h | h
    · cases h2 : parseDateStr endStr <;> simp [backfillCmd, h, h2]
    · cases h1 : parseDateStr start <;> simp [backfillCmd, h, h1]
  · intro counts fuel start endStr dt s e hs he hle
    simp [backfillCmd, hs, he, hle]
  · intro counts fuel start endStr s e hs he hle
    simp [backfillCmd, hs, he, hle]
  · intro n sinceText h
    simp [tradesCmd, h]

/-- C7 witness: each invalid-input shape at concrete command lines. -/
theorem C7_invalid_input_exits_before_ingestion_witness :
    backfillCmd (fun _ => 0) 5 "garbage" "2024-01-05" "trades" =
      ⟨1, [.storageInit, .adapterInit], 0⟩ ∧
    backfillCmd (fun _ => 0) 5 "2024-01-05" "2024-01-05" "trades" =
      ⟨1, [.storageInit, .adapterInit], 0⟩ ∧
    backfillCmd (fun _ => 0) 5 "2024-01-04" "2024-01-05" "prices" =
      ⟨1, [.storageInit, .adapterInit], 0⟩ ∧
    tradesCmd 7 (some "not-a-date") = ⟨1, [.storageInit, .adapterInit], 0⟩ :=
  ⟨C7_invalid_input_exits_before_ingestion.1 (fun _ => 0) 5 "garbage" "2024-01-05"
      "trades" (Or.inl rfl),
   C7_invalid_input_exits_before_ingestion.2.1 (fun _ => 0) 5 "2024-01-05"
      "2024-01-05" "trades" ⟨2024, 1, 5, 0, 0, 0⟩ ⟨2024, 1, 5, 0, 0, 0⟩ rfl rfl
      (by decide),
   C7_invalid_input_exits_before_ingestion.2.2.1 (fun _ => 0) 5 "2024-01-04"
      "2024-01-05" ⟨2024, 1, 4, 0, 0, 0⟩ ⟨2024, 1, 5, 0, 0, 0⟩ rfl rfl (by decide),
   C7_invalid_input_exits_before_ingestion.2.2.2 7 "not-a-date" rfl⟩

/-- The retry loop never makes more attempts than it is allowed. -/
lemma retryLoop_attempts_le (oracle : Nat → AttemptOutcome) :
    ∀ (remaining idx : Nat) (acc : ClientTrace),
    (retryLoop oracle remaining idx acc).2.attempts ≤ acc.attempts + remaining := by
  intro remaining
  induction remaining with
  | zero => intro idx acc; simp [retryLoop]
  | succ n ih =>
    intro idx acc
    cases ho : oracle idx with
    | success b => simp [retryLoop, ho]
    | httpError s b => simp [retryLoop, ho]
    | transportError k =>
      by_cases hn : n = 0
      · subst hn
        simp [retryLoop, ho]
      · have h := ih (idx + 1)
          { acc with attempts := acc.attempts + 1,
                     errorTags := acc.errorTags ++ ["error_type:" ++ k] }
        simp only [retryLoop, ho]
        rw [if_neg hn]
        simp only at h
        omega

/-- C8: transient transport failures are retried with at most 3 attempts in
total before the transport error surfaces; a non-2xx HTTP status is never
retried — after any run of transport failures it propagates on its first
occurrence, with the status code and the first 500 characters of the body
logged and an error counter tagged by status code incremented. -/
theorem C8_retry_policy :
    (∀ oracle, (clientRequest oracle).2.attempts ≤ 3) ∧
    (∀ oracle, (∀ i, isTransport (oracle i) = true) →
        (clientRequest oracle).2.attempts = 3 ∧
        isTransportFailure (clientRequest oracle).1 = true) ∧
    (∀ (oracle : Nat → AttemptOutcome) (k s : Nat) (b : String),
        k < 3 →
        (∀ i, i < k → isTransport (oracle i) = true) →
        oracle k = .httpError s b →
        (clientRequest oracle).1 = .httpFailure s ∧
        (clientRequest oracle).2.attempts = k + 1 ∧
        (clientRequest oracle).2.loggedHttpError = some (s, b.take 500) ∧
        ("status:" ++ toString s) ∈ (clientRequest oracle).2.errorTags) := by
  refine ⟨?_, ?_, ?_⟩
  · intro oracle
    have h := retryLoop_attempts_le oracle 3 0 ⟨0, 0, [], none⟩
    simpa [clientRequest] using h
  · intro oracle h
    have h0 := h 0
    have h1 := h 1
    have h2 := h 2
    rcases ho0 : oracle 0 with b0 | k0 | ⟨s0, b0⟩ <;> rw [ho0] at h0 <;>
      simp [isTransport] at h0
    rcases ho1 : oracle 1 with b1 | k1 | ⟨s1, b1⟩ <;> rw [ho1] at h1 <;>
      simp [isTransport] at h1
    rcases ho2 : oracle 2 with b2 | k2 | ⟨s2, b2⟩ <;> rw [ho2] at h2 <;>
      simp [isTransport] at h2
    simp [clientRequest, retryLoop, ho0, ho1, ho2, isTransportFailure]
  · intro oracle k s b hk hpre hor
    interval_cases k
    · simp [clientRequest, retryLoop, hor]
    · have h0 := hpre 0 (by omega)
      rcases ho0 : oracle 0 with b0 | k0 | ⟨s0, b0⟩ <;> rw [ho0] at h0 <;>
        simp [isTransport] at h0
      simp [clientRequest, retryLoop, ho0, hor]
    · have h0 := hpre 0 (by omega)
      have h1 := hpre 1 (by omega)
      rcases ho0 : oracle 0 with b0 | k0 | ⟨s0, b0⟩ <;> rw [ho0] at h0 <;>
        simp [isTransport] at h0
      rcases ho1 : oracle 1 with b1 | k1 | ⟨s1, b1⟩ <;> rw [ho1] at h1 <;>
        simp [isTransport] at h1
      simp [clientRequest, retryLoop, ho0, ho1, hor]

/-- Oracle: one connect timeout, then a 404 response. -/
def c8Oracle : Nat → AttemptOutcome :=
  fun i => if i = 0 then .transportError "ConnectTimeout"
           else .httpError 404 "Not Found body"

/-- C8 witness: after one transport retry, the 404 propagates at once —
two attempts total, status and truncated body logged, counter tagged. -/
theorem C8_retry_policy_witness :
    (clientRequest c8Oracle).1 = .httpFailure 404 ∧
    (clientRequest c8Oracle).2.attempts = 2 ∧
    (clientRequest c8Oracle).2.loggedHttpError =
      some (404, "Not Found body".take 500) ∧
    ("status:" ++ toString 404) ∈ (clientRequest c8Oracle).2.errorTags :=
  C8_retry_policy.2.2 c8Oracle 1 404 "Not Found body" (by omega)
    (fun i hi => by interval_cases i; rfl) rfl

/-- C9 counterexample: for start 2024-01-01 and end 2024-01-03 the second
day-window's computed end is 23:59:59 of Jan 2 — the clamp to the overall
end does not fire, since Jan 2 23:59:59 is not after Jan 3 00:00 — so the
claim's asserted second window [01-02 00:00, 01-03 00:00] is not what the
command produces. -/
theorem C9_second_window_end :
    (backfillLoop (fun _ => 1) ⟨2024, 1, 3, 0, 0, 0⟩ 8 ⟨2024, 1, 1, 0, 0, 0⟩).1.map
        (·.2) = [⟨2024, 1, 1, 23, 59, 59⟩, ⟨2024, 1, 2, 23, 59, 59⟩] ∧
    (⟨2024, 1, 2, 23, 59, 59⟩ : DateTime) ≠ ⟨2024, 1, 3, 0, 0, 0⟩ := by
  decide

/-- C9 (amended): the trades backfill iterates day-by-day — each iteration
computes the day's end as 23:59:59 of the cursor day clamped to the overall
end if that is earlier, ingests with `since` equal to the cursor, then
advances the cursor to 00:00:00 of the following day; the grand total is
the sum of the per-iteration stored counts; and for start 2024-01-01, end
2024-01-03 this yields exactly the two windows [01-01 00:00, 01-01
23:59:59] and [01-02 00:00, 01-02 23:59:59]. -/
theorem C9_backfill_day_splitting :
    (∀ (counts : DateTime → Nat) (endDt : DateTime) (fuel : Nat)
        (current : DateTime),
        (backfillLoop counts endDt fuel current).2 =
          ((backfillLoop counts endDt fuel current).1.map (fun w => counts w.1)).sum) ∧
    (∀ (counts : DateTime → Nat) (endDt : DateTime) (fuel : Nat)
        (current : DateTime) (w : DateTime × DateTime),
        w ∈ (backfillLoop counts endDt fuel current).1 →
        w.2 = if dtLt endDt (dayEnd w.1) then endDt else dayEnd w.1) ∧
    (∀ counts : DateTime → Nat,
        backfillLoop counts ⟨2024, 1, 3, 0, 0, 0⟩ 2 ⟨2024, 1, 1, 0, 0, 0⟩ =
          ([(⟨2024, 1, 1, 0, 0, 0⟩, ⟨2024, 1, 1, 23, 59, 59⟩),
            (⟨2024, 1, 2, 0, 0, 0⟩, ⟨2024, 1, 2, 23, 59, 59⟩)],
            counts ⟨2024, 1, 1, 0, 0, 0⟩ + (counts ⟨2024, 1, 2, 0, 0, 0⟩ + 0))) := by
  refine ⟨?_, ?_, ?_⟩
  · intro counts endDt fuel
    induction fuel with
    | zero => intro current; simp [backfillLoop]
    | succ n ih =>
      intro current
      by_cases h : dtLt current endDt = true
      · simp [backfillLoop, h, ih]
      · have h' : dtLt current endDt = false := by simpa using h
        simp [backfillLoop, h']
  · intro counts endDt fuel
    induction fuel with
    | zero => intro current w hw; simp [backfillLoop] at hw
    | succ n ih =>
      intro current w hw
      by_cases h : dtLt current endDt = true
      · simp only [backfillLoop, h, if_true] at hw
        rcases List.mem_cons.mp hw with he | ht
        · rw [he]
        · exact ih _ w ht
      · have h' : dtLt current endDt = false := by simpa using h
        simp [backfillLoop, h'] at hw
  · intro counts
    rfl

/-- C9 witness: the sum-of-counts and window-end shape at a concrete run
(three calendar days, every ingestion returning 5). -/
theorem C9_backfill_day_splitting_witness :
    (backfillLoop (fun _ => 5) ⟨2024, 1, 3, 0, 0, 0⟩ 2 ⟨2024, 1, 1, 0, 0, 0⟩).2 =
      ((backfillLoop (fun _ => 5) ⟨2024, 1, 3, 0, 0, 0⟩ 2
          ⟨2024, 1, 1, 0, 0, 0⟩).1.map (fun w => 5)).sum ∧
    (⟨2024, 1, 1, 0, 0, 0⟩, ⟨2024, 1, 1, 23, 59, 59⟩) ∈
      (backfillLoop (fun _ => 5) ⟨2024, 1, 3, 0, 0, 0⟩ 2 ⟨2024, 1, 1, 0, 0, 0⟩).1 ∧
    (⟨2024, 1, 1, 23, 59, 59⟩ : DateTime) =
      (if dtLt ⟨2024, 1, 3, 0, 0, 0⟩ (dayEnd ⟨2024, 1, 1, 0, 0, 0⟩)
       then (⟨2024, 1, 3, 0, 0, 0⟩ : DateTime)
       else dayEnd ⟨2024, 1, 1, 0, 0, 0⟩) :=
  ⟨C9_backfill_day_splitting.1 (fun _ => 5) ⟨2024, 1, 3, 0, 0, 0⟩ 2
      ⟨2024, 1, 1, 0, 0, 0⟩,
   by decide,
   C9_backfill_day_splitting.2.1 (fun _ => 5) ⟨2024, 1, 3, 0, 0, 0⟩ 2
      ⟨2024, 1, 1, 0, 0, 0⟩ (⟨2024, 1, 1, 0, 0, 0⟩, ⟨2024, 1, 1, 23, 59, 59⟩)
      (by decide)⟩

/-- C10: a raw payload missing its identifier field normalizes to an
empty-string key instead of being rejected — a market without `id` gets
`market_id = ""` (and without `question` gets `question = ""`), a trade
without `id` gets `trade_id = ""` — so any two id-less records of the same
source share one natural key and the second overwrites the first on
upsert. -/
theorem C10_idless_records_share_key :
    ∀ (raw raw2 : RawDict) (source : String),
      (rawHas raw "id" = false →
        (normalize_market_from_raw raw source).market_id = "" ∧
        (normalize_trade_from_raw raw source).trade_id = "") ∧
      (rawHas raw "question" = false →
        (normalize_market_from_raw raw source).question = .vStr "") ∧
      (rawHas raw "id" = false → rawHas raw2 "id" = false →
        tradeKeyMatches (normalize_trade_from_raw raw source)
          (normalize_trade_from_raw raw2 source) = true ∧
        applyTradeUpsert [normalize_trade_from_raw raw source]
          (normalize_trade_from_raw raw2 source) =
          [normalize_trade_from_raw raw2 source]) := by
  intro raw raw2 source
  refine ⟨?_, ?_, ?_⟩
  · intro h
    constructor <;>
      simp [normalize_market_from_raw, normalize_trade_from_raw,
        rawGetD_absent _ _ _ h, pyStr]
  · intro h
    simp [normalize_market_from_raw, rawGetD_absent _ _ _ h]
  · intro h1 h2
    have k1 : (normalize_trade_from_raw raw source).trade_id = "" := by
      simp [normalize_trade_from_raw, rawGetD_absent _ _ _ h1, pyStr]
    have k2 : (normalize_trade_from_raw raw2 source).trade_id = "" := by
      simp [normalize_trade_from_raw, rawGetD_absent _ _ _ h2, pyStr]
    have hk : tradeKeyMatches (normalize_trade_from_raw raw source)
        (normalize_trade_from_raw raw2 source) = true := by
      simp [tradeKeyMatches, normalize_trade_from_raw,
        rawGetD_absent _ _ _ h1, rawGetD_absent _ _ _ h2]
    have hov : overwriteTradeNonKey (normalize_trade_from_raw raw source)
        (normalize_trade_from_raw raw2 source) =
        normalize_trade_from_raw raw2 source := by
      simp only [overwriteTradeNonKey, normalize_trade_from_raw]
      rw [rawGetD_absent _ _ _ h1, rawGetD_absent _ _ _ h2]
    exact ⟨hk, by simp [applyTradeUpsert, hk, hov]⟩

/-- C10 witness: two concrete id-less payloads collapse onto the key
`("", "polymarket")` and the second overwrites the first. -/
theorem C10_idless_records_share_key_witness :
    (normalize_market_from_raw [("question", .vStr "q?")] "polymarket").market_id =
      "" ∧
    applyTradeUpsert
        [normalize_trade_from_raw [("marketId", .vStr "m1")] "polymarket"]
        (normalize_trade_from_raw [("price", .vNum 1)] "polymarket") =
      [normalize_trade_from_raw [("price", .vNum 1)] "polymarket"] :=
  ⟨((C10_idless_records_share_key [("question", .vStr "q?")]
      [("price", .vNum 1)] "polymarket").1 rfl).1,
   ((C10_idless_records_share_key [("marketId", .vStr "m1")]
      [("price", .vNum 1)] "polymarket").2.2 rfl rfl).2⟩

end PM
